import Mathlib

/-!
Shallow embedding of the xcur-rs XCursor file parser (`src/parser.rs`) and
verification of its specification.

Modelling conventions:
* A byte buffer is a `List Nat` (each element a byte value).
* `nom`'s `le_u32` (the little-endian build of `card32`) is `readLE32`:
  it returns `none` (nom `Incomplete`) when fewer than four bytes remain,
  otherwise the little-endian 32-bit word.  We model the little-endian
  configuration, matching the format's de-facto convention.
* Rust `u32` arithmetic that can overflow (`width * height`) is modelled
  with an explicit `% 2^32`.
* A parse returns `PResult`: `done` (nom `IResult::Done`), `error`
  (`IResult::Error`), `incomplete` (`IResult::Incomplete`), or `panicked`
  for a Rust panic caused by an out-of-bounds slice index `&i[k..]` with
  `k > i.len()` (the source indexes slices without a bounds check).
* `String::from_utf8` is modelled by `utf8Decode`, which performs standard
  UTF-8 validation (as Rust's standard library does) and yields the decoded
  Unicode scalar values, or `none` on invalid input.
-/

namespace XCur

/-- Byte of the buffer at index `k`; out-of-range reads never happen where
this is used for a value (guarded by `readLE32`'s length check). -/
def byteAt (b : List Nat) (k : Nat) : Nat := b.getD k 0

/-- The little-endian 32-bit word assembled from bytes `off..off+4`. -/
def word (b : List Nat) (off : Nat) : Nat :=
  byteAt b off + 256 * byteAt b (off + 1) + 65536 * byteAt b (off + 2) +
    16777216 * byteAt b (off + 3)

/-- Model of `card32` on the little-endian configuration (`nom::le_u32`,
`src/parser.rs` lines 36-40): `none` is nom's `Incomplete` when fewer than
four bytes remain at `off`. -/
def readLE32 (b : List Nat) (off : Nat) : Option Nat :=
  if off + 4 ≤ b.length then some (word b off) else none

/-- `HEADER_SIZE` constant (`src/parser.rs` line 42). -/
def HEADER_SIZE : Nat := 12

/-- `TABLE_OF_CONTENTS_SIZE` constant (`src/parser.rs` line 97). -/
def TABLE_OF_CONTENTS_SIZE : Nat := 12

/-- The magic constant checked by `Header::validate` on the little-endian
configuration (`src/parser.rs` line 89). -/
def XCURSOR_MAGIC : Nat := 0x72756358

/-- `COMMENT_TYPE` constant (`src/parser.rs` line 164). -/
def COMMENT_TYPE : Nat := 0xFFFE0001

/-- `COMMENT_VERSION` constant (`src/parser.rs` line 165). -/
def COMMENT_VERSION : Nat := 1

/-- `IMAGE_TYPE` constant (`src/parser.rs` line 230). -/
def IMAGE_TYPE : Nat := 0xFFFD0002

/-- `IMAGE_VERSION` constant (`src/parser.rs` line 231). -/
def IMAGE_VERSION : Nat := 1

/-- `IMAGE_MAX_SIZE` constant (`src/parser.rs` line 232). -/
def IMAGE_MAX_SIZE : Nat := 0x7FFF

/-- Continuation byte test for UTF-8 (`0x80..=0xBF`). -/
def isCont (c : Nat) : Bool := 0x80 ≤ c && c ≤ 0xBF

/-- First-continuation constraint of a three-byte UTF-8 sequence with lead
byte `b` (excludes overlong forms for `0xE0` and surrogates for `0xED`). -/
def cont3ok (b c : Nat) : Bool :=
  if b = 0xE0 then 0xA0 ≤ c && c ≤ 0xBF
  else if b = 0xED then 0x80 ≤ c && c ≤ 0x9F
  else isCont c

/-- First-continuation constraint of a four-byte UTF-8 sequence with lead
byte `b` (excludes overlong forms for `0xF0` and values above `U+10FFFF`
for `0xF4`). -/
def cont4ok (b c : Nat) : Bool :=
  if b = 0xF0 then 0x90 ≤ c && c ≤ 0xBF
  else if b = 0xF4 then 0x80 ≤ c && c ≤ 0x8F
  else isCont c

/-- Model of Rust's `String::from_utf8` (used at `src/parser.rs` line 199):
standard UTF-8 validation, returning the decoded Unicode scalar values on
success and `none` on any invalid byte sequence. -/
def utf8Decode : List Nat → Option (List Nat)
  | [] => some []
  | b :: rest =>
    if b ≤ 0x7F then (utf8Decode rest).map (List.cons b)
    else if b < 0xC2 then none
    else if b ≤ 0xDF then
      match rest with
      | c1 :: r =>
        if isCont c1 then
          (utf8Decode r).map (List.cons ((b - 0xC0) * 64 + (c1 - 0x80)))
        else none
      | [] => none
    else if b ≤ 0xEF then
      match rest with
      | c1 :: c2 :: r =>
        if cont3ok b c1 && isCont c2 then
          (utf8Decode r).map
            (List.cons ((b - 0xE0) * 4096 + (c1 - 0x80) * 64 + (c2 - 0x80)))
        else none
      | _ => none
    else if b ≤ 0xF4 then
      match rest with
      | c1 :: c2 :: c3 :: r =>
        if cont4ok b c1 && isCont c2 && isCont c3 then
          (utf8Decode r).map
            (List.cons ((b - 0xF0) * 262144 + (c1 - 0x80) * 4096 +
              (c2 - 0x80) * 64 + (c3 - 0x80)))
        else none
      | _ => none
    else none

/-- The `Header` struct (`src/parser.rs` lines 46-58). -/
structure Header where
  magic : Nat
  header : Nat
  version : Nat
  ntoc : Nat
deriving DecidableEq

/-- The `TableOfContents` struct (`src/parser.rs` lines 101-110). -/
structure TableOfContents where
  type_ : Nat
  subtype : Nat
  position : Nat
deriving DecidableEq

/-- The `ChunkHeader` struct (`src/parser.rs` lines 131-143). -/
structure ChunkHeader where
  header : Nat
  type_ : Nat
  subtype : Nat
  version : Nat
deriving DecidableEq

/-- The `Comment` struct (`src/parser.rs` lines 178-187); the `string`
field holds the decoded Unicode scalar values of the Rust `String`. -/
structure Comment where
  chunkheader : ChunkHeader
  length : Nat
  string : List Nat
deriving DecidableEq

/-- The `Image` struct (`src/parser.rs` lines 207-228). -/
structure Image where
  chunkheader : ChunkHeader
  width : Nat
  height : Nat
  xhot : Nat
  yhot : Nat
  delay : Nat
  pixels : List Nat
deriving DecidableEq

/-- The `File` struct (`src/parser.rs` lines 287-293). -/
structure File where
  comments : List Comment
  images : List Image
deriving DecidableEq

/-- The `ParseError` enum (`src/parser.rs` lines 357-384).  `NomError`'s
payload is omitted: in this parser every low-level `nom` failure is an
`Incomplete` (modelled by `PResult.incomplete`), so the constructor is
never produced. -/
inductive ParseError where
  | NomError : ParseError
  | InvalidHeader : String → ParseError
  | InvalidCommentVersion : ParseError
  | InvalidImageVersion : ParseError
  | InvalidImageWidth : ParseError
  | InvalidImageHeight : ParseError
  | InvalidImageXHot : ParseError
  | InvalidImageYHot : ParseError
  | InvalidTOC : ParseError
deriving DecidableEq

/-- Outcome of a parse: `nom::IResult` (`Done`/`Error`/`Incomplete`),
plus `panicked` for a Rust panic from an out-of-bounds slice index. -/
inductive PResult (α : Type) where
  | done : α → PResult α
  | error : ParseError → PResult α
  | incomplete : PResult α
  | panicked : PResult α
deriving DecidableEq

/-- Map over the success value of a `PResult`. -/
def PResult.map {α β : Type} (f : α → β) : PResult α → PResult β
  | .done a => .done (f a)
  | .error e => .error e
  | .incomplete => .incomplete
  | .panicked => .panicked

/-- `Header::parse` (`src/parser.rs` lines 61-76): four chained `card32`
reads at offsets 0, 4, 8, 12. -/
def Header.parse (i : List Nat) : PResult Header :=
  match readLE32 i 0, readLE32 i 4, readLE32 i 8, readLE32 i 12 with
  | some m, some hd, some v, some n => .done ⟨m, hd, v, n⟩
  | _, _, _, _ => .incomplete

/-- The TOC-reading loop of `File::parse` (`src/parser.rs` lines 304-310):
reads `n` consecutive 12-byte `TableOfContents` entries starting at
absolute offset `count`.  `&i[count..]` panics when `count > i.len()`. -/
def parseTocs (i : List Nat) (count : Nat) : Nat → PResult (List TableOfContents)
  | 0 => .done []
  | n + 1 =>
    if i.length < count then .panicked
    else
      match readLE32 i count, readLE32 i (count + 4), readLE32 i (count + 8) with
      | some t, some s, some p =>
        match parseTocs i (count + TABLE_OF_CONTENTS_SIZE) n with
        | .done rest => .done (⟨t, s, p⟩ :: rest)
        | .error e => .error e
        | .incomplete => .incomplete
        | .panicked => .panicked
      | _, _, _ => .incomplete

/-- `Comment::parse` (`src/parser.rs` lines 190-202): `ChunkHeader::parse`
(four words at 0, 4, 8, 12), a length word at 16, then `take!(length)`
(Incomplete when fewer than `length` bytes remain); the payload is decoded
with `String::from_utf8`, substituting the empty string on failure
(`unwrap_or_else`). -/
def Comment.parse (i : List Nat) : PResult Comment :=
  match readLE32 i 0, readLE32 i 4, readLE32 i 8, readLE32 i 12, readLE32 i 16 with
  | some h0, some t0, some s0, some v0, some len =>
    if 20 + len ≤ i.length then
      .done ⟨⟨h0, t0, s0, v0⟩, len, (utf8Decode ((i.drop 20).take len)).getD []⟩
    else .incomplete
  | _, _, _, _, _ => .incomplete

/-- The pixel-reading loop of `Image::parse` (`src/parser.rs` lines
244-251): reads `n` words, the `k`-th at `&i[count + 4*k..]`, pushing each
in order.  `&i[c..]` panics when `c > i.len()`; a read with fewer than four
bytes remaining is `Incomplete`. -/
def readPixels (i : List Nat) (count : Nat) : Nat → PResult (List Nat)
  | 0 => .done []
  | n + 1 =>
    if i.length < count then .panicked
    else
      match readLE32 i count with
      | some px =>
        match readPixels i (count + 4) n with
        | .done rest => .done (px :: rest)
        | .error e => .error e
        | .incomplete => .incomplete
        | .panicked => .panicked
      | none => .incomplete

/-- `Image::parse` (`src/parser.rs` lines 235-263): `ChunkHeader::parse`,
then width, height, xhot, yhot, delay at offsets 16..36, then the pixel
loop which runs `width * height` times (u32 product, hence `% 2^32`)
starting at offset `count = 24` of the chunk slice. -/
def Image.parse (i : List Nat) : PResult Image :=
  match readLE32 i 0, readLE32 i 4, readLE32 i 8, readLE32 i 12 with
  | some h0, some t0, some s0, some v0 =>
    match readLE32 i 16, readLE32 i 20, readLE32 i 24, readLE32 i 28, readLE32 i 32 with
    | some w, some h, some xh, some yh, some dl =>
      match readPixels i 24 (w * h % 4294967296) with
      | .done px => .done ⟨⟨h0, t0, s0, v0⟩, w, h, xh, yh, dl, px⟩
      | .error e => .error e
      | .incomplete => .incomplete
      | .panicked => .panicked
    | _, _, _, _, _ => .incomplete
  | _, _, _, _ => .incomplete

/-- The image validation chain of `File::parse` (`src/parser.rs` lines
327-339): version, then width, height, xhot, yhot checks, first match
wins; `none` means the image is accepted. -/
def imageChecks (img : Image) : Option ParseError :=
  if img.chunkheader.version ≠ IMAGE_VERSION then some .InvalidImageVersion
  else if IMAGE_MAX_SIZE ≤ img.width then some .InvalidImageWidth
  else if IMAGE_MAX_SIZE ≤ img.height then some .InvalidImageHeight
  else if img.width ≤ img.xhot then some .InvalidImageXHot
  else if img.height ≤ img.yhot then some .InvalidImageYHot
  else none

/-- Pushing a decoded comment onto the accumulated result (the
`comments.push(comment)` of the dispatch loop, `src/parser.rs` line 323):
prepend the comment when the rest of the loop succeeds, otherwise keep
its failure. -/
def contComment (c : Comment) : PResult (List Comment × List Image) →
    PResult (List Comment × List Image)
  | .done (cs, imgs) => .done (c :: cs, imgs)
  | .error e => .error e
  | .incomplete => .incomplete
  | .panicked => .panicked

/-- Pushing a validated image onto the accumulated result (the
`images.push(image)` of the dispatch loop, `src/parser.rs` line 341). -/
def contImage (img : Image) : PResult (List Comment × List Image) →
    PResult (List Comment × List Image)
  | .done (cs, imgs) => .done (cs, img :: imgs)
  | .error e => .error e
  | .incomplete => .incomplete
  | .panicked => .panicked

/-- Wrap the finished accumulators into `File` (`src/parser.rs` lines
347-351). -/
def finishFile : PResult (List Comment × List Image) → PResult File
  | .done (cs, imgs) => .done ⟨cs, imgs⟩
  | .error e => .error e
  | .incomplete => .incomplete
  | .panicked => .panicked

/-- The chunk-dispatch loop of `File::parse` (`src/parser.rs` lines
315-345): for each TOC entry, dispatch on `type_`; comment and image
chunks are parsed at the entry's absolute `position` (`&i[position..]`
panics when `position > i.len()`); an unknown type is `InvalidTOC`. -/
def processTocs (i : List Nat) : List TableOfContents → PResult (List Comment × List Image)
  | [] => .done ([], [])
  | toc :: rest =>
    if toc.type_ = COMMENT_TYPE then
      if i.length < toc.position then .panicked
      else
        match Comment.parse (i.drop toc.position) with
        | .done c =>
          if c.chunkheader.version ≠ COMMENT_VERSION then .error .InvalidCommentVersion
          else contComment c (processTocs i rest)
        | .error e => .error e
        | .incomplete => .incomplete
        | .panicked => .panicked
    else if toc.type_ = IMAGE_TYPE then
      if i.length < toc.position then .panicked
      else
        match Image.parse (i.drop toc.position) with
        | .done img =>
          match imageChecks img with
          | some e => .error e
          | none => contImage img (processTocs i rest)
        | .error e => .error e
        | .incomplete => .incomplete
        | .panicked => .panicked
    else .error .InvalidTOC

/-- `File::parse` (`src/parser.rs` lines 297-352): parse the header,
validate the magic (`InvalidHeader` on mismatch), read `ntoc` TOC entries
starting at `HEADER_SIZE + 4 = 16`, then process every entry. -/
def File.parse (i : List Nat) : PResult File :=
  match Header.parse i with
  | .done hd =>
    if hd.magic = XCURSOR_MAGIC then
      match parseTocs i (HEADER_SIZE + 4) hd.ntoc with
      | .done tocs => finishFile (processTocs i tocs)
      | .error e => .error e
      | .incomplete => .incomplete
      | .panicked => .panicked
    else .error (.InvalidHeader "Invalid magic bytes")
  | .error e => .error e
  | .incomplete => .incomplete
  | .panicked => .panicked

/-- Little-endian byte encoding of a 32-bit value, used to build concrete
test buffers. -/
def le32 (x : Nat) : List Nat :=
  [x % 256, x / 256 % 256, x / 65536 % 256, x / 16777216 % 256]

/-- Buffer with a valid header, `ntoc = 1`, and one comment TOC entry
whose `position` (100) lies past the 28-byte buffer end. -/
def c1buf : List Nat :=
  le32 XCURSOR_MAGIC ++ le32 16 ++ le32 1 ++ le32 1 ++
    le32 COMMENT_TYPE ++ le32 1 ++ le32 100

/-- A 40-byte image chunk: header-size 36, image type, subtype 1,
version 1, width 1, height 1, xhot 0, yhot 0, delay 50, and the single
pixel `0xDEADBEEF` stored at chunk offset 36 (after the delay field). -/
def c2chunk : List Nat :=
  le32 36 ++ le32 IMAGE_TYPE ++ le32 1 ++ le32 1 ++
    le32 1 ++ le32 1 ++ le32 0 ++ le32 0 ++ le32 50 ++ le32 0xDEADBEEF

/-- The end-to-end buffer of the spec's scenario: header with `ntoc = 2`,
a comment TOC entry (copyright subtype, position 40) and an image TOC
entry (position 65); at 40 a comment chunk (version 1, 5-byte ASCII string
"hello"); at 65 an image chunk (version 1, width 1, height 1, xhot 0,
yhot 0, delay 50) whose pixel word `0xDEADBEEF` occupies bytes 101..105
(chunk offset 36, after the delay field).  105 bytes. -/
def c3buf : List Nat :=
  le32 XCURSOR_MAGIC ++ le32 16 ++ le32 1 ++ le32 2 ++
    le32 COMMENT_TYPE ++ le32 1 ++ le32 40 ++
    le32 IMAGE_TYPE ++ le32 1 ++ le32 65 ++
    le32 20 ++ le32 COMMENT_TYPE ++ le32 1 ++ le32 1 ++
    le32 5 ++ [104, 101, 108, 108, 111] ++
    le32 36 ++ le32 IMAGE_TYPE ++ le32 1 ++ le32 1 ++
    le32 1 ++ le32 1 ++ le32 0 ++ le32 0 ++ le32 50 ++ le32 0xDEADBEEF

/-- The observable content of a `Comment` apart from its stored chunk
header: declared length and decoded string. -/
def stripComment (c : Comment) : Nat × List Nat := (c.length, c.string)

/-- The observable content of an `Image` apart from its stored chunk
header: dimensions, hotspot, delay and pixels. -/
def stripImage (img : Image) : Nat × Nat × Nat × Nat × Nat × List Nat :=
  (img.width, img.height, img.xhot, img.yhot, img.delay, img.pixels)

/-- Strip the chunk headers from an accumulated comment/image pair. -/
def stripCI (ci : List Comment × List Image) :
    List (Nat × List Nat) × List (Nat × Nat × Nat × Nat × Nat × List Nat) :=
  (ci.1.map stripComment, ci.2.map stripImage)

/-- Strip the chunk headers from a parsed `File`. -/
def stripFile (f : File) :
    List (Nat × List Nat) × List (Nat × Nat × Nat × Nat × Nat × List Nat) :=
  (f.comments.map stripComment, f.images.map stripImage)

/-- Image used to witness the validation checks: width and height one
below the maximum bound, hotspot inside the image, valid version. -/
def c4img : Image := ⟨⟨36, 0xFFFD0002, 1, 1⟩, 0x7FFE, 0x7FFE, 0x7FFD, 0x7FFD, 0, []⟩

/-- A 21-byte comment chunk whose one-byte payload `0xFF` is not valid
UTF-8 (chunk header with version 1 at bytes 12..16, length 1 at 16..20,
payload at 20). -/
def c7buf : List Nat := le32 0 ++ le32 0 ++ le32 0 ++ le32 1 ++ le32 1 ++ [0xFF]

/-- Buffer for the header-fields claim: valid header (`ntoc = 1`,
header-size 16, file version 7), one comment TOC entry with `position = 8`,
so the comment's chunk header overlaps the file header (its `header` field
is the file-version word, its `version` field is the TOC `subtype` = 1,
its length field is the TOC `position` word = 8) and the 8-byte payload
"ABCDEFGH" fills bytes 28..36. -/
def c8a : List Nat :=
  le32 XCURSOR_MAGIC ++ le32 16 ++ le32 7 ++ le32 1 ++
    le32 COMMENT_TYPE ++ le32 1 ++ le32 8 ++ [65, 66, 67, 68, 69, 70, 71, 72]

/-- Same as `c8a` with the file-version field changed from 7 to 99: the
two buffers differ only at byte 8, inside the header-size/version region. -/
def c8b : List Nat :=
  le32 XCURSOR_MAGIC ++ le32 16 ++ le32 99 ++ le32 1 ++
    le32 COMMENT_TYPE ++ le32 1 ++ le32 8 ++ [65, 66, 67, 68, 69, 70, 71, 72]

/-- Buffer with a valid header, one image TOC entry at position 28, and a
36-byte image chunk declaring `width = height = 2^16` (so the 32-bit pixel
count wraps to zero and no pixel bytes are needed). -/
def c10buf : List Nat :=
  le32 XCURSOR_MAGIC ++ le32 16 ++ le32 1 ++ le32 1 ++
    le32 IMAGE_TYPE ++ le32 1 ++ le32 28 ++
    le32 36 ++ le32 IMAGE_TYPE ++ le32 1 ++ le32 1 ++
    le32 0x10000 ++ le32 0x10000 ++ le32 0 ++ le32 0 ++ le32 0

/-- A 40-byte 2x2 image chunk used to witness the pixel-count law. -/
def c10chunk : List Nat :=
  le32 36 ++ le32 IMAGE_TYPE ++ le32 1 ++ le32 1 ++
    le32 2 ++ le32 2 ++ le32 1 ++ le32 1 ++ le32 7 ++ le32 9

/-- The image decoded from `c10chunk`: four pixels, read starting at
chunk offset 24 (so they are the xhot, yhot, delay and trailing words). -/
def c10img : Image := ⟨⟨36, 0xFFFD0002, 1, 1⟩, 2, 2, 1, 1, 7, [1, 1, 7, 9]⟩

/-- C1: the claim says a TOC entry whose `position` lies past the buffer
end makes `File::parse` fail with a bounds/read error and never panic.
The code instead panics: on `c1buf` (valid header, one comment TOC entry
with `position = 100` in a 28-byte buffer) the slice expression
`&i[position..]` at `src/parser.rs` line 318 indexes out of bounds. -/
theorem c1_oob_position_panics : File.parse c1buf = PResult.panicked := by decide

/-- C2: the claim says pixel `k` of an image chunk at position `p` is read
at absolute offset `p + 36 + 4*k`.  The code starts its pixel loop at
chunk offset 24 (`let mut count: usize = 24`, `src/parser.rs` line 245),
so on `c2chunk` (width 1, height 1, xhot 0) the single decoded pixel is
the xhot word `0` rather than the word `0xDEADBEEF` stored at chunk
offset 36. -/
theorem c2_pixel_offset :
    Image.parse c2chunk =
      PResult.done ⟨⟨36, 0xFFFD0002, 1, 1⟩, 1, 1, 0, 0, 50, [0]⟩ ∧
    readLE32 c2chunk 36 = some 0xDEADBEEF := by decide

/-- C3: the spec's end-to-end scenario.  The buffer parses to exactly one
Comment and one Image and every field matches the supplied bytes except
the pixel: the image's single pixel is `0` (the xhot word at chunk offset
24, where the code's pixel loop starts) instead of the supplied pixel word
`0xDEADBEEF` at bytes 101..105 (chunk offset 36). -/
theorem c3_end_to_end :
    File.parse c3buf =
      PResult.done
        ⟨[⟨⟨20, 0xFFFE0001, 1, 1⟩, 5, [104, 101, 108, 108, 111]⟩],
         [⟨⟨36, 0xFFFD0002, 1, 1⟩, 1, 1, 0, 0, 50, [0]⟩]⟩ ∧
    readLE32 c3buf 101 = some 0xDEADBEEF := by decide

/-- C6: a TOC entry whose type tag is neither the comment-chunk constant
nor the image-chunk constant makes the dispatch loop fail with
`InvalidTOC` immediately; the result is the same for every buffer `b`
(including the empty one) and every `position`, so no byte at the entry's
position is ever read or decoded. -/
theorem c6_unknown_toc_type (b : List Nat) (toc : TableOfContents)
    (rest : List TableOfContents)
    (h1 : toc.type_ ≠ COMMENT_TYPE) (h2 : toc.type_ ≠ IMAGE_TYPE) :
    processTocs b (toc :: rest) = PResult.error ParseError.InvalidTOC := by
  simp [processTocs, h1, h2]

/-- Witness for C6: a concrete unknown tag (5) on the empty buffer with a
position far past the end still yields `InvalidTOC` (nothing is read). -/
theorem c6_witness :
    processTocs [] [⟨5, 0, 999⟩] = PResult.error ParseError.InvalidTOC :=
  c6_unknown_toc_type [] ⟨5, 0, 999⟩ [] (by decide) (by decide)

/-- C9: `File::parse` is deterministic — it is a pure function of the
buffer, so byte-identical buffers give identical results. -/
theorem c9_deterministic (b1 b2 : List Nat) (h : b1 = b2) :
    File.parse b1 = File.parse b2 := by rw [h]

/-- Witness for C9 at a concrete buffer. -/
theorem c9_witness : File.parse c3buf = File.parse c3buf :=
  c9_deterministic c3buf c3buf rfl

theorem byteAt_drop (b : List Nat) (p k : Nat) :
    byteAt (b.drop p) k = byteAt b (p + k) := by
  simp [byteAt, List.getD_eq_getElem?_getD, List.getElem?_drop]

theorem word_drop (b : List Nat) (p k : Nat) :
    word (b.drop p) k = word b (p + k) := by
  simp [word, byteAt_drop, Nat.add_assoc]

theorem readLE32_some (b : List Nat) (off : Nat) (h : off + 4 ≤ b.length) :
    readLE32 b off = some (word b off) := by
  simp [readLE32, h]

theorem readLE32_none (b : List Nat) (off : Nat) (h : b.length < off + 4) :
    readLE32 b off = none := by
  simp only [readLE32]
  rw [if_neg (by omega)]

theorem header_parse_eq (i : List Nat) :
    Header.parse i =
      if 16 ≤ i.length then
        PResult.done ⟨word i 0, word i 4, word i 8, word i 12⟩
      else PResult.incomplete := by
  by_cases h : 16 ≤ i.length
  · rw [Header.parse, readLE32_some i 0 (by omega), readLE32_some i 4 (by omega),
      readLE32_some i 8 (by omega), readLE32_some i 12 (by omega), if_pos h]
  · rw [Header.parse, readLE32_none i 12 (by omega), if_neg h]
    cases readLE32 i 0 <;> cases readLE32 i 4 <;> cases readLE32 i 8 <;> rfl

theorem comment_parse_eq (i : List Nat) :
    Comment.parse i =
      if 20 ≤ i.length then
        if 20 + word i 16 ≤ i.length then
          PResult.done ⟨⟨word i 0, word i 4, word i 8, word i 12⟩, word i 16,
            (utf8Decode ((i.drop 20).take (word i 16))).getD []⟩
        else PResult.incomplete
      else PResult.incomplete := by
  by_cases h : 20 ≤ i.length
  · rw [Comment.parse, readLE32_some i 0 (by omega), readLE32_some i 4 (by omega),
      readLE32_some i 8 (by omega), readLE32_some i 12 (by omega),
      readLE32_some i 16 (by omega), if_pos h]
  · rw [Comment.parse, readLE32_none i 16 (by omega), if_neg h]
    cases readLE32 i 0 <;> cases readLE32 i 4 <;> cases readLE32 i 8 <;>
      cases readLE32 i 12 <;> rfl

theorem readPixels_eq (i : List Nat) (n : Nat) :
    ∀ c, c ≤ i.length →
      readPixels i c n =
        if c + 4 * n ≤ i.length then
          PResult.done ((List.range n).map (fun k => word i (c + 4 * k)))
        else PResult.incomplete := by
  induction n with
  | zero => intro c hc; simp [readPixels, hc]
  | succ n ih =>
    intro c hc
    rw [readPixels, if_neg (by omega : ¬ i.length < c)]
    by_cases h4 : c + 4 ≤ i.length
    · rw [readLE32_some i c h4, ih (c + 4) (by omega)]
      by_cases h44 : c + 4 + 4 * n ≤ i.length
      · rw [if_pos h44, if_pos (by omega : c + 4 * (n + 1) ≤ i.length)]
        have hm : List.map (fun k => word i (c + 4 + 4 * k)) (List.range n) =
            List.map ((fun k => word i (c + 4 * k)) ∘ Nat.succ) (List.range n) := by
          apply List.map_congr_left
          intro a _
          simp only [Function.comp]
          congr 1
          omega
        rw [List.range_succ_eq_map, List.map_cons, List.map_map, hm]
        simp
      · rw [if_neg h44, if_neg (by omega : ¬ c + 4 * (n + 1) ≤ i.length)]
    · rw [readLE32_none i c (by omega), if_neg (by omega : ¬ c + 4 * (n + 1) ≤ i.length)]

theorem parseTocs_eq (i : List Nat) (n : Nat) :
    ∀ c, c ≤ i.length →
      parseTocs i c n =
        if c + 12 * n ≤ i.length then
          PResult.done ((List.range n).map (fun k =>
            TableOfContents.mk (word i (c + 12 * k)) (word i (c + 12 * k + 4))
              (word i (c + 12 * k + 8))))
        else PResult.incomplete := by
  induction n with
  | zero => intro c hc; simp [parseTocs, hc]
  | succ n ih =>
    intro c hc
    rw [parseTocs, if_neg (by omega : ¬ i.length < c)]
    simp only [TABLE_OF_CONTENTS_SIZE]
    by_cases h12 : c + 12 ≤ i.length
    · rw [readLE32_some i c (by omega), readLE32_some i (c + 4) (by omega),
        readLE32_some i (c + 8) (by omega), ih (c + 12) (by omega)]
      by_cases hrest : c + 12 + 12 * n ≤ i.length
      · rw [if_pos hrest, if_pos (by omega : c + 12 * (n + 1) ≤ i.length)]
        have hm : List.map (fun k =>
              TableOfContents.mk (word i (c + 12 + 12 * k)) (word i (c + 12 + 12 * k + 4))
                (word i (c + 12 + 12 * k + 8))) (List.range n) =
            List.map ((fun k =>
              TableOfContents.mk (word i (c + 12 * k)) (word i (c + 12 * k + 4))
                (word i (c + 12 * k + 8))) ∘ Nat.succ) (List.range n) := by
          apply List.map_congr_left
          intro a _
          simp only [Function.comp]
          congr 1 <;> · congr 1; omega
        rw [List.range_succ_eq_map, List.map_cons, List.map_map, hm]
        simp
      · rw [if_neg hrest, if_neg (by omega : ¬ c + 12 * (n + 1) ≤ i.length)]
    · rw [readLE32_none i (c + 8) (by omega),
        if_neg (by omega : ¬ c + 12 * (n + 1) ≤ i.length)]
      cases readLE32 i c <;> cases readLE32 i (c + 4) <;> rfl

theorem image_parse_eq (i : List Nat) :
    Image.parse i =
      if 36 ≤ i.length then
        if 24 + 4 * (word i 16 * word i 20 % 4294967296) ≤ i.length then
          PResult.done ⟨⟨word i 0, word i 4, word i 8, word i 12⟩,
            word i 16, word i 20, word i 24, word i 28, word i 32,
            (List.range (word i 16 * word i 20 % 4294967296)).map
              (fun k => word i (24 + 4 * k))⟩
        else PResult.incomplete
      else PResult.incomplete := by
  by_cases h : 36 ≤ i.length
  · rw [Image.parse, readLE32_some i 0 (by omega), readLE32_some i 4 (by omega),
      readLE32_some i 8 (by omega), readLE32_some i 12 (by omega),
      readLE32_some i 16 (by omega), readLE32_some i 20 (by omega),
      readLE32_some i 24 (by omega), readLE32_some i 28 (by omega),
      readLE32_some i 32 (by omega), if_pos h]
    dsimp only
    rw [readPixels_eq i (word i 16 * word i 20 % 4294967296) 24 (by omega)]
    by_cases hfit : 24 + 4 * (word i 16 * word i 20 % 4294967296) ≤ i.length
    · rw [if_pos hfit, if_pos hfit]
    · rw [if_neg hfit, if_neg hfit]
  · rw [Image.parse, readLE32_none i 32 (by omega), if_neg h]
    cases readLE32 i 0 <;> cases readLE32 i 4 <;> cases readLE32 i 8 <;>
      cases readLE32 i 12 <;> cases readLE32 i 16 <;> cases readLE32 i 20 <;>
      cases readLE32 i 24 <;> cases readLE32 i 28 <;> rfl

/-- C4: the validation chain applied by `File::parse` to a decoded image
with a valid version: width, then height, then xhot, then yhot, each
check first-match-wins with the exact inequalities of the code, including
the boundary cases (`xhot = width` fails, `xhot = width - 1` passes;
dimension equal to the bound fails, one less passes). -/
theorem c4_image_validation (img : Image)
    (hver : img.chunkheader.version = IMAGE_VERSION) :
    (IMAGE_MAX_SIZE ≤ img.width →
      imageChecks img = some ParseError.InvalidImageWidth) ∧
    (img.width < IMAGE_MAX_SIZE → IMAGE_MAX_SIZE ≤ img.height →
      imageChecks img = some ParseError.InvalidImageHeight) ∧
    (img.width < IMAGE_MAX_SIZE → img.height < IMAGE_MAX_SIZE →
      img.width ≤ img.xhot → imageChecks img = some ParseError.InvalidImageXHot) ∧
    (img.width < IMAGE_MAX_SIZE → img.height < IMAGE_MAX_SIZE →
      img.xhot < img.width → img.height ≤ img.yhot →
      imageChecks img = some ParseError.InvalidImageYHot) ∧
    (img.width < IMAGE_MAX_SIZE → img.height < IMAGE_MAX_SIZE →
      img.xhot < img.width → img.yhot < img.height → imageChecks img = none) ∧
    (img.width < IMAGE_MAX_SIZE → img.height < IMAGE_MAX_SIZE →
      img.xhot = img.width → imageChecks img = some ParseError.InvalidImageXHot) ∧
    (img.width < IMAGE_MAX_SIZE → img.height < IMAGE_MAX_SIZE →
      img.xhot + 1 = img.width → img.yhot < img.height → imageChecks img = none) ∧
    (img.width = IMAGE_MAX_SIZE →
      imageChecks img = some ParseError.InvalidImageWidth) ∧
    (img.width + 1 = IMAGE_MAX_SIZE → img.height + 1 = IMAGE_MAX_SIZE →
      img.xhot < img.width → img.yhot < img.height → imageChecks img = none) := by
  refine ⟨?_, ?_, ?_, ?_, ?_, ?_, ?_, ?_, ?_⟩ <;> intros <;>
    unfold imageChecks <;> rw [hver] <;> split_ifs <;> first | rfl | omega

/-- Witness for C4: an image one below both bounds with the hotspot at
`width - 1`, `height - 1` passes every check. -/
theorem c4_witness : imageChecks c4img = none :=
  (c4_image_validation c4img (by decide)).2.2.2.2.2.2.2.2
    (by decide) (by decide) (by decide) (by decide)

/-- C5: a buffer of at least 16 bytes whose leading magic word differs
from the expected constant always parses to `InvalidHeader` with the
human-readable reason string, never another outcome. -/
theorem c5_corrupted_magic (b : List Nat) (hlen : 16 ≤ b.length)
    (hmagic : word b 0 ≠ XCURSOR_MAGIC) :
    File.parse b = PResult.error (ParseError.InvalidHeader "Invalid magic bytes") := by
  rw [File.parse, header_parse_eq, if_pos hlen]
  dsimp only
  rw [if_neg hmagic]

/-- Witness for C5: sixteen zero bytes have magic word 0. -/
theorem c5_witness :
    File.parse (List.replicate 16 0) =
      PResult.error (ParseError.InvalidHeader "Invalid magic bytes") :=
  c5_corrupted_magic (List.replicate 16 0) (by decide) (by decide)

/-- C7: a comment chunk whose payload is not valid UTF-8 does not abort
the parse: the dispatch loop still produces a `Comment` whose string is
empty and continues with the remaining TOC entries (the final result is
the remaining entries' result with this comment prepended). -/
theorem c7_utf8_recovery (b : List Nat) (toc : TableOfContents)
    (rest : List TableOfContents)
    (htype : toc.type_ = COMMENT_TYPE)
    (hfit : toc.position + 20 + word b (toc.position + 16) ≤ b.length)
    (hver : word b (toc.position + 12) = COMMENT_VERSION)
    (hbad : utf8Decode ((b.drop (toc.position + 20)).take
      (word b (toc.position + 16))) = none) :
    processTocs b (toc :: rest) =
      PResult.map (fun ci =>
        (Comment.mk
          ⟨word b toc.position, word b (toc.position + 4), word b (toc.position + 8),
            word b (toc.position + 12)⟩ (word b (toc.position + 16)) [] :: ci.1,
         ci.2))
        (processTocs b rest) := by
  rw [processTocs, if_pos htype, if_neg (by omega : ¬ b.length < toc.position)]
  rw [comment_parse_eq]
  simp only [List.length_drop, word_drop, List.drop_drop]
  rw [if_pos (by omega : 20 ≤ b.length - toc.position),
    if_pos (by omega : 20 + word b (toc.position + 16) ≤ b.length - toc.position)]
  rw [hbad]
  dsimp only
  rw [hver]
  rw [if_neg (by simp : ¬ COMMENT_VERSION ≠ COMMENT_VERSION)]
  cases processTocs b rest <;> rfl

/-- Witness for C7: the chunk `c7buf` with its single `0xFF` payload byte
yields a comment with the empty string and the parse finishes. -/
theorem c7_witness :
    processTocs c7buf [⟨COMMENT_TYPE, 1, 0⟩] =
      PResult.done ([⟨⟨0, 0, 0, 1⟩, 1, []⟩], []) := by
  have h := c7_utf8_recovery c7buf ⟨COMMENT_TYPE, 1, 0⟩ []
    (by decide) (by decide) (by decide) (by decide)
  exact h.trans (by decide)

/-- C10: the number of pixels decoded for an image chunk is always
`width * height` reduced modulo `2^32`, and the pixel loop runs before the
dimension validations: `c10buf`'s image declares `width = height = 2^16`,
so zero pixels are read and the parse then fails with
`InvalidImageWidth`. -/
theorem c10_pixel_count :
    (∀ (i : List Nat) (img : Image), Image.parse i = PResult.done img →
      img.pixels.length = img.width * img.height % 4294967296) ∧
    File.parse c10buf = PResult.error ParseError.InvalidImageWidth := by
  constructor
  · intro i img h
    rw [image_parse_eq] at h
    by_cases h36 : 36 ≤ i.length
    · rw [if_pos h36] at h
      by_cases hfit : 24 + 4 * (word i 16 * word i 20 % 4294967296) ≤ i.length
      · rw [if_pos hfit] at h
        injection h with h'
        subst h'
        simp
      · rw [if_neg hfit] at h
        exact PResult.noConfusion h
    · rw [if_neg h36] at h
      exact PResult.noConfusion h
  · decide

/-- Witness for C10: the 2x2 chunk `c10chunk` decodes to four pixels,
matching `2 * 2 % 2^32`. -/
theorem c10_witness :
    Image.parse c10chunk = PResult.done c10img ∧
      c10img.pixels.length = c10img.width * c10img.height % 4294967296 :=
  ⟨by decide, c10_pixel_count.1 c10chunk c10img (by decide)⟩

theorem byteAt_eq_lo (b1 b2 : List Nat) (h4 : b1.take 4 = b2.take 4)
    (k : Nat) (hk : k < 4) : byteAt b1 k = byteAt b2 k := by
  have e1 : byteAt b1 k = byteAt (b1.take 4) k := by
    simp [byteAt, List.getD_eq_getElem?_getD, List.getElem?_take_of_lt hk]
  have e2 : byteAt b2 k = byteAt (b2.take 4) k := by
    simp [byteAt, List.getD_eq_getElem?_getD, List.getElem?_take_of_lt hk]
  rw [e1, e2, h4]

theorem byteAt_eq_hi (b1 b2 : List Nat) (h12 : b1.drop 12 = b2.drop 12)
    (k : Nat) (hk : 12 ≤ k) : byteAt b1 k = byteAt b2 k := by
  have e1 : byteAt b1 k = byteAt (b1.drop 12) (k - 12) := by
    rw [byteAt_drop]
    congr 1
    omega
  have e2 : byteAt b2 k = byteAt (b2.drop 12) (k - 12) := by
    rw [byteAt_drop]
    congr 1
    omega
  rw [e1, e2, h12]

theorem word_eq_lo (b1 b2 : List Nat) (h4 : b1.take 4 = b2.take 4) :
    word b1 0 = word b2 0 := by
  unfold word
  rw [byteAt_eq_lo b1 b2 h4 0 (by omega), byteAt_eq_lo b1 b2 h4 (0 + 1) (by omega),
    byteAt_eq_lo b1 b2 h4 (0 + 2) (by omega), byteAt_eq_lo b1 b2 h4 (0 + 3) (by omega)]

theorem word_eq_hi (b1 b2 : List Nat) (h12 : b1.drop 12 = b2.drop 12)
    (off : Nat) (hoff : 12 ≤ off) : word b1 off = word b2 off := by
  unfold word
  rw [byteAt_eq_hi b1 b2 h12 off hoff, byteAt_eq_hi b1 b2 h12 (off + 1) (by omega),
    byteAt_eq_hi b1 b2 h12 (off + 2) (by omega), byteAt_eq_hi b1 b2 h12 (off + 3) (by omega)]

theorem readLE32_eq_hi (b1 b2 : List Nat) (hlen : b1.length = b2.length)
    (h12 : b1.drop 12 = b2.drop 12) (off : Nat) (hoff : 12 ≤ off) :
    readLE32 b1 off = readLE32 b2 off := by
  unfold readLE32
  rw [hlen, word_eq_hi b1 b2 h12 off hoff]

theorem drop_eq_hi (b1 b2 : List Nat) (h12 : b1.drop 12 = b2.drop 12)
    (p : Nat) (hp : 12 ≤ p) : b1.drop p = b2.drop p := by
  have e1 : b1.drop p = (b1.drop 12).drop (p - 12) := by
    rw [List.drop_drop]
    congr 1
    omega
  have e2 : b2.drop p = (b2.drop 12).drop (p - 12) := by
    rw [List.drop_drop]
    congr 1
    omega
  rw [e1, e2, h12]

theorem parseTocs_agree (b1 b2 : List Nat) (hlen : b1.length = b2.length)
    (h12 : b1.drop 12 = b2.drop 12) (n : Nat) :
    ∀ c, 12 ≤ c → parseTocs b1 c n = parseTocs b2 c n := by
  induction n with
  | zero => intro c hc; rfl
  | succ n ih =>
    intro c hc
    rw [parseTocs, parseTocs, hlen]
    by_cases hp : b2.length < c
    · rw [if_pos hp, if_pos hp]
    · rw [if_neg hp, if_neg hp,
        readLE32_eq_hi b1 b2 hlen h12 c (by omega),
        readLE32_eq_hi b1 b2 hlen h12 (c + 4) (by omega),
        readLE32_eq_hi b1 b2 hlen h12 (c + 8) (by omega),
        ih (c + TABLE_OF_CONTENTS_SIZE) (by simp only [TABLE_OF_CONTENTS_SIZE]; omega)]

theorem map_contComment (c1 c2 : Comment) (hc : stripComment c1 = stripComment c2)
    (r1 r2 : PResult (List Comment × List Image))
    (h : PResult.map stripCI r1 = PResult.map stripCI r2) :
    PResult.map stripCI (contComment c1 r1) = PResult.map stripCI (contComment c2 r2) := by
  cases r1 with
  | done a1 =>
    cases r2 with
    | done a2 =>
      obtain ⟨cs1, is1⟩ := a1
      obtain ⟨cs2, is2⟩ := a2
      simp only [PResult.map, stripCI, PResult.done.injEq, Prod.mk.injEq] at h
      simp only [contComment, PResult.map, stripCI, PResult.done.injEq, Prod.mk.injEq,
        List.map_cons]
      exact ⟨by rw [hc, h.1], h.2⟩
    | error e => simp [PResult.map] at h
    | incomplete => simp [PResult.map] at h
    | panicked => simp [PResult.map] at h
  | error e1 =>
    cases r2 with
    | done a2 => simp [PResult.map] at h
    | error e2 =>
      simp only [PResult.map, PResult.error.injEq] at h
      subst h
      rfl
    | incomplete => simp [PResult.map] at h
    | panicked => simp [PResult.map] at h
  | incomplete =>
    cases r2 with
    | done a2 => simp [PResult.map] at h
    | error e2 => simp [PResult.map] at h
    | incomplete => rfl
    | panicked => simp [PResult.map] at h
  | panicked =>
    cases r2 with
    | done a2 => simp [PResult.map] at h
    | error e2 => simp [PResult.map] at h
    | incomplete => simp [PResult.map] at h
    | panicked => rfl

theorem map_contImage (i1 i2 : Image) (hs : stripImage i1 = stripImage i2)
    (r1 r2 : PResult (List Comment × List Image))
    (h : PResult.map stripCI r1 = PResult.map stripCI r2) :
    PResult.map stripCI (contImage i1 r1) = PResult.map stripCI (contImage i2 r2) := by
  cases r1 with
  | done a1 =>
    cases r2 with
    | done a2 =>
      obtain ⟨cs1, is1⟩ := a1
      obtain ⟨cs2, is2⟩ := a2
      simp only [PResult.map, stripCI, PResult.done.injEq, Prod.mk.injEq] at h
      simp only [contImage, PResult.map, stripCI, PResult.done.injEq, Prod.mk.injEq,
        List.map_cons]
      exact ⟨h.1, by rw [hs, h.2]⟩
    | error e => simp [PResult.map] at h
    | incomplete => simp [PResult.map] at h
    | panicked => simp [PResult.map] at h
  | error e1 =>
    cases r2 with
    | done a2 => simp [PResult.map] at h
    | error e2 =>
      simp only [PResult.map, PResult.error.injEq] at h
      subst h
      rfl
    | incomplete => simp [PResult.map] at h
    | panicked => simp [PResult.map] at h
  | incomplete =>
    cases r2 with
    | done a2 => simp [PResult.map] at h
    | error e2 => simp [PResult.map] at h
    | incomplete => rfl
    | panicked => simp [PResult.map] at h
  | panicked =>
    cases r2 with
    | done a2 => simp [PResult.map] at h
    | error e2 => simp [PResult.map] at h
    | incomplete => simp [PResult.map] at h
    | panicked => rfl

theorem map_imageStep (i1 i2 : Image) (hs : stripImage i1 = stripImage i2)
    (hv : i1.chunkheader.version = i2.chunkheader.version)
    (r1 r2 : PResult (List Comment × List Image))
    (h : PResult.map stripCI r1 = PResult.map stripCI r2) :
    PResult.map stripCI (match imageChecks i1 with
      | some e => PResult.error e
      | none => contImage i1 r1) =
    PResult.map stripCI (match imageChecks i2 with
      | some e => PResult.error e
      | none => contImage i2 r2) := by
  have hw : i1.width = i2.width := congrArg Prod.fst hs
  have hh : i1.height = i2.height := congrArg (fun t => t.2.1) hs
  have hx : i1.xhot = i2.xhot := congrArg (fun t => t.2.2.1) hs
  have hy : i1.yhot = i2.yhot := congrArg (fun t => t.2.2.2.1) hs
  have hic : imageChecks i1 = imageChecks i2 := by
    unfold imageChecks
    rw [hv, hw, hh, hx, hy]
  rw [hic]
  cases imageChecks i2 with
  | some e => rfl
  | none => exact map_contImage i1 i2 hs r1 r2 h

theorem map_finishFile (r1 r2 : PResult (List Comment × List Image))
    (h : PResult.map stripCI r1 = PResult.map stripCI r2) :
    PResult.map stripFile (finishFile r1) = PResult.map stripFile (finishFile r2) := by
  cases r1 with
  | done a1 =>
    cases r2 with
    | done a2 =>
      obtain ⟨cs1, is1⟩ := a1
      obtain ⟨cs2, is2⟩ := a2
      simp only [PResult.map, stripCI, PResult.done.injEq, Prod.mk.injEq] at h
      simp only [finishFile, PResult.map, stripFile, PResult.done.injEq, Prod.mk.injEq]
      exact h
    | error e => simp [PResult.map] at h
    | incomplete => simp [PResult.map] at h
    | panicked => simp [PResult.map] at h
  | error e1 =>
    cases r2 with
    | done a2 => simp [PResult.map] at h
    | error e2 =>
      simp only [PResult.map, PResult.error.injEq] at h
      subst h
      rfl
    | incomplete => simp [PResult.map] at h
    | panicked => simp [PResult.map] at h
  | incomplete =>
    cases r2 with
    | done a2 => simp [PResult.map] at h
    | error e2 => simp [PResult.map] at h
    | incomplete => rfl
    | panicked => simp [PResult.map] at h
  | panicked =>
    cases r2 with
    | done a2 => simp [PResult.map] at h
    | error e2 => simp [PResult.map] at h
    | incomplete => simp [PResult.map] at h
    | panicked => rfl

theorem processTocs_agree (b1 b2 : List Nat) (hlen : b1.length = b2.length)
    (h12 : b1.drop 12 = b2.drop 12) :
    ∀ tocs, PResult.map stripCI (processTocs b1 tocs) =
      PResult.map stripCI (processTocs b2 tocs) := by
  intro tocs
  induction tocs with
  | nil => rfl
  | cons toc rest ih =>
    simp only [processTocs]
    by_cases htC : toc.type_ = COMMENT_TYPE
    · simp only [if_pos htC]
      by_cases hp : b2.length < toc.position
      · rw [hlen, if_pos hp, if_pos hp]
      · rw [hlen, if_neg hp, if_neg hp]
        rw [comment_parse_eq (b1.drop toc.position), comment_parse_eq (b2.drop toc.position)]
        simp only [List.length_drop, word_drop, List.drop_drop, hlen]
        rw [word_eq_hi b1 b2 h12 (toc.position + 12) (by omega),
          word_eq_hi b1 b2 h12 (toc.position + 16) (by omega),
          drop_eq_hi b1 b2 h12 (toc.position + 20) (by omega)]
        by_cases hc1 : 20 ≤ b2.length - toc.position
        · rw [if_pos hc1, if_pos hc1]
          by_cases hc2 : 20 + word b2 (toc.position + 16) ≤ b2.length - toc.position
          · rw [if_pos hc2, if_pos hc2]
            dsimp only
            by_cases hv : word b2 (toc.position + 12) ≠ COMMENT_VERSION
            · rw [if_pos hv, if_pos hv]
            · rw [if_neg hv, if_neg hv]
              refine map_contComment _ _ ?_ _ _ ih
              rfl
          · rw [if_neg hc2, if_neg hc2]
        · rw [if_neg hc1, if_neg hc1]
    · simp only [if_neg htC]
      by_cases htI : toc.type_ = IMAGE_TYPE
      · simp only [if_pos htI]
        by_cases hp : b2.length < toc.position
        · rw [hlen, if_pos hp, if_pos hp]
        · rw [hlen, if_neg hp, if_neg hp]
          rw [image_parse_eq (b1.drop toc.position), image_parse_eq (b2.drop toc.position)]
          simp only [List.length_drop, word_drop, hlen]
          rw [word_eq_hi b1 b2 h12 (toc.position + 12) (by omega),
            word_eq_hi b1 b2 h12 (toc.position + 16) (by omega),
            word_eq_hi b1 b2 h12 (toc.position + 20) (by omega),
            word_eq_hi b1 b2 h12 (toc.position + 24) (by omega),
            word_eq_hi b1 b2 h12 (toc.position + 28) (by omega),
            word_eq_hi b1 b2 h12 (toc.position + 32) (by omega)]
          have hpix : (List.range
                (word b2 (toc.position + 16) * word b2 (toc.position + 20) % 4294967296)).map
                (fun k => word b1 (toc.position + (24 + 4 * k))) =
              (List.range
                (word b2 (toc.position + 16) * word b2 (toc.position + 20) % 4294967296)).map
                (fun k => word b2 (toc.position + (24 + 4 * k))) := by
            apply List.map_congr_left
            intro a _
            exact word_eq_hi b1 b2 h12 _ (by omega)
          rw [hpix]
          by_cases hc1 : 36 ≤ b2.length - toc.position
          · rw [if_pos hc1, if_pos hc1]
            by_cases hc2 : 24 + 4 *
                (word b2 (toc.position + 16) * word b2 (toc.position + 20) % 4294967296) ≤
                b2.length - toc.position
            · rw [if_pos hc2, if_pos hc2]
              dsimp only
              refine map_imageStep _ _ ?_ ?_ _ _ ih <;> rfl
            · rw [if_neg hc2, if_neg hc2]
          · rw [if_neg hc1, if_neg hc1]
      · simp only [if_neg htI]

/-- C8 (amended): the header-size and file-version fields never influence
success or failure.  For buffers of equal length agreeing everywhere
outside bytes 4..12, the parses return the same kind of result with the
same error, and the same Document up to the stored chunk-header prefix
words (which can overlap bytes 4..12 when a TOC position points below
offset 12). -/
theorem c8_header_fields_immaterial (b1 b2 : List Nat)
    (hlen : b1.length = b2.length) (h4 : b1.take 4 = b2.take 4)
    (h12 : b1.drop 12 = b2.drop 12) :
    PResult.map stripFile (File.parse b1) = PResult.map stripFile (File.parse b2) := by
  simp only [File.parse]
  rw [header_parse_eq, header_parse_eq, hlen]
  by_cases h16 : 16 ≤ b2.length
  · rw [if_pos h16, if_pos h16]
    dsimp only
    rw [word_eq_lo b1 b2 h4, word_eq_hi b1 b2 h12 12 (by omega)]
    by_cases hm : word b2 0 = XCURSOR_MAGIC
    · rw [if_pos hm, if_pos hm]
      rw [parseTocs_agree b1 b2 hlen h12 (word b2 12) (HEADER_SIZE + 4) (by decide)]
      cases parseTocs b2 (HEADER_SIZE + 4) (word b2 12) with
      | done tocs =>
        dsimp only
        exact map_finishFile _ _ (processTocs_agree b1 b2 hlen h12 tocs)
      | error e => rfl
      | incomplete => rfl
      | panicked => rfl
    · rw [if_neg hm, if_neg hm]
  · rw [if_neg h16, if_neg h16]

/-- Counterexample for C8 as stated: `c8a` and `c8b` are valid buffers of
equal length agreeing everywhere outside the header-size/version bytes
4..12 (they differ only at byte 8, the file-version field), yet they parse
to different Documents, because the comment chunk at TOC position 8 stores
the file-version word in its chunk header.  So the parse outcome is not
literally unchanged by those two fields. -/
theorem c8_counterexample :
    c8a.length = c8b.length ∧ c8a.take 4 = c8b.take 4 ∧
      c8a.drop 12 = c8b.drop 12 ∧ 16 ≤ c8a.length ∧
      word c8a 0 = XCURSOR_MAGIC ∧ File.parse c8a ≠ File.parse c8b := by decide

/-- Witness for C8 (amended) at the concrete pair `c8a`, `c8b`. -/
theorem c8_witness :
    PResult.map stripFile (File.parse c8a) = PResult.map stripFile (File.parse c8b) :=
  c8_header_fields_immaterial c8a c8b (by decide) (by decide) (by decide)

end XCur
